import Mathlib

/-!
Verification of the chat-to-nextcloud relay pipeline.

Strings are modelled as `List Char` (the code points of a Python `str`).
Each definition is a direct shallow embedding of the corresponding Python
function from the repository; comments name the source location.
-/

namespace ChatToNextcloud

/-! ## Path resolver (src/path_resolver.py) -/

/-- Characters replaced by the regex `[<>:"/\\|?*]` in sanitize_path_component. -/
def isIllegalChar (c : Char) : Bool :=
  c = '<' || c = '>' || c = ':' || c = '"' || c = '/' || c = '\\' ||
  c = '|' || c = '?' || c = '*'

/-- Characters stripped from both ends by str.strip(". "). -/
def isStripChar (c : Char) : Bool :=
  c = '.' || c = ' '

/-- Embeds re.sub applied with pattern [<>:"/\\|?*] and replacement "_". -/
def replaceIllegal (s : List Char) : List Char :=
  s.map (fun c => if isIllegalChar c then '_' else c)

/-- Embeds str.strip(". "): drop leading and trailing '.' and ' ' characters. -/
def stripDotsSpaces (s : List Char) : List Char :=
  ((s.dropWhile isStripChar).reverse.dropWhile isStripChar).reverse

/-- Embeds re.sub applied with pattern _+ and replacement "_": every maximal
run of consecutive underscores becomes a single underscore. -/
def collapseUnderscores : List Char → List Char
  | [] => []
  | [c] => [c]
  | c :: d :: rest =>
    if c = '_' ∧ d = '_' then collapseUnderscores (d :: rest)
    else c :: collapseUnderscores (d :: rest)

/-- Embeds sanitize_path_component (src/path_resolver.py lines 15-19). -/
def sanitize_path_component (s : List Char) : List Char :=
  let s1 := replaceIllegal s
  let s2 := stripDotsSpaces s1
  let s3 := collapseUnderscores s2
  if s3 = [] then "unknown".toList else s3

/-- Checks whether pat is a prefix of s (Python str.startswith). -/
def startsWith : List Char → List Char → Bool
  | [], _ => true
  | _ :: _, [] => false
  | p :: ps, c :: cs => p = c && startsWith ps cs

/-- Checks whether the pattern occurs as a contiguous substring of s. -/
def containsTok (pat : List Char) : List Char → Bool
  | [] => pat.isEmpty
  | c :: rest => startsWith pat (c :: rest) || containsTok pat rest

/-- Embeds Python str.replace for a non-empty pattern p :: ps: scan left to
right; at each position where the pattern matches, emit the replacement and
skip past the matched occurrence, otherwise keep the character.  The fuel
argument only forces structural termination: every step consumes at least
one character, so fuel = length of the scanned string never runs out. -/
def replaceAllAux (p : Char) (ps rep : List Char) : Nat → List Char → List Char
  | _, [] => []
  | 0, s => s
  | fuel + 1, c :: rest =>
    if startsWith (p :: ps) (c :: rest) then
      rep ++ replaceAllAux p ps rep fuel (rest.drop ps.length)
    else
      c :: replaceAllAux p ps rep fuel rest

/-- Embeds str.replace(pat, rep).  The patterns passed by resolve_path are
always of the form "{" + key + "}", hence non-empty; the empty-pattern case
is unreachable there and returns the string unchanged. -/
def strReplace (s pat rep : List Char) : List Char :=
  match pat with
  | [] => s
  | p :: ps => replaceAllAux p ps rep s.length s

/-- Timestamp model: the fields of datetime that resolve_path reads via
strftime (%Y, %m, %d, %H, %M). -/
structure DateTime where
  year : Nat
  month : Nat
  day : Nat
  hour : Nat
  minute : Nat
deriving DecidableEq, Repr

/-- Embeds strftime field %m / %d / %H / %M: decimal digits zero-padded to
width 2. -/
def pad2 (n : Nat) : List Char :=
  if n < 10 then '0' :: Nat.toDigits 10 n else Nat.toDigits 10 n

/-- Embeds strftime field %Y: the decimal digits of the year (years in scope
are four-digit, where %Y prints them unpadded). -/
def fmtYear (n : Nat) : List Char :=
  Nat.toDigits 10 n

/-- Embeds strftime("%Y-%m-%d"). -/
def fmtDate (ts : DateTime) : List Char :=
  fmtYear ts.year ++ '-' :: pad2 ts.month ++ '-' :: pad2 ts.day

/-- Embeds the FileMetadata dataclass (src/path_resolver.py lines 6-12). -/
structure FileMetadata where
  platform : List Char
  room : List Char
  sender : List Char
  filename : List Char
  timestamp : Option DateTime
deriving DecidableEq, Repr

/-- Embeds lines 25-31 of resolve_path: split the filename on the LAST dot
via str.rsplit(".", 1); a filename with no dot yields the whole filename as
base and an empty extension. -/
def rsplitDot (s : List Char) : List Char × List Char :=
  if '.' ∈ s then
    (((s.reverse.dropWhile (fun c => !(c = '.'))).drop 1).reverse,
     (s.reverse.takeWhile (fun c => !(c = '.'))).reverse)
  else
    (s, [])

/-- Embeds the `variables` dict of resolve_path (lines 33-46), in Python dict
insertion order.  The timestamp defaults to `now` when the metadata carries
none (line 23: `metadata.timestamp or datetime.now()`). -/
def pathVariables (m : FileMetadata) (now : DateTime) :
    List (List Char × List Char) :=
  let ts := m.timestamp.getD now
  let fb := (rsplitDot m.filename).1
  let ext := (rsplitDot m.filename).2
  [ ("platform".toList, sanitize_path_component m.platform),
    ("room".toList, sanitize_path_component m.room),
    ("sender".toList, sanitize_path_component m.sender),
    ("filename".toList, sanitize_path_component m.filename),
    ("filename_base".toList, sanitize_path_component fb),
    ("ext".toList, ext),
    ("date".toList, fmtDate ts),
    ("year".toList, fmtYear ts.year),
    ("month".toList, pad2 ts.month),
    ("day".toList, pad2 ts.day),
    ("hour".toList, pad2 ts.hour),
    ("minute".toList, pad2 ts.minute) ]

/-- One substitution step of the loop body (line 51):
result.replace("{" + key + "}", value). -/
def substStep (acc : List Char) (kv : List Char × List Char) : List Char :=
  strReplace acc ('{' :: kv.1 ++ ['}']) kv.2

/-- Folds the substitution loop over an arbitrary association list. -/
def applySubsts (subs : List (List Char × List Char)) (template : List Char) :
    List Char :=
  subs.foldl substStep template

/-- Embeds resolve_path (src/path_resolver.py lines 22-53): the for-loop over
the variables dict unrolled in Python dict insertion order. -/
def resolve_path (template : List Char) (m : FileMetadata) (now : DateTime) :
    List Char :=
  let ts := m.timestamp.getD now
  let fb := (rsplitDot m.filename).1
  let ext := (rsplitDot m.filename).2
  let r0 := template
  let r1 := strReplace r0 ('{' :: "platform".toList ++ ['}']) (sanitize_path_component m.platform)
  let r2 := strReplace r1 ('{' :: "room".toList ++ ['}']) (sanitize_path_component m.room)
  let r3 := strReplace r2 ('{' :: "sender".toList ++ ['}']) (sanitize_path_component m.sender)
  let r4 := strReplace r3 ('{' :: "filename".toList ++ ['}']) (sanitize_path_component m.filename)
  let r5 := strReplace r4 ('{' :: "filename_base".toList ++ ['}']) (sanitize_path_component fb)
  let r6 := strReplace r5 ('{' :: "ext".toList ++ ['}']) ext
  let r7 := strReplace r6 ('{' :: "date".toList ++ ['}']) (fmtDate ts)
  let r8 := strReplace r7 ('{' :: "year".toList ++ ['}']) (fmtYear ts.year)
  let r9 := strReplace r8 ('{' :: "month".toList ++ ['}']) (pad2 ts.month)
  let r10 := strReplace r9 ('{' :: "day".toList ++ ['}']) (pad2 ts.day)
  let r11 := strReplace r10 ('{' :: "hour".toList ++ ['}']) (pad2 ts.hour)
  let r12 := strReplace r11 ('{' :: "minute".toList ++ ['}']) (pad2 ts.minute)
  r12

/-! ## Adapter-facing event record (src/adapters/base.py) -/

/-- Embeds the FileMessage dataclass (src/adapters/base.py lines 8-20). -/
structure FileMessage where
  platform : List Char
  room_id : List Char
  room_name : List Char
  sender_id : List Char
  sender_name : List Char
  filename : List Char
  mimetype : List Char
  size : Nat
  timestamp : DateTime
  download_url : List Char
  message_id : List Char
deriving DecidableEq, Repr

/-! ## Filesystem model for the file processor

The on-disk state is a list of absolute paths, each a list of components.
The temporary directory created by tempfile.TemporaryDirectory is an
absolute fresh directory; its context-manager exit runs shutil.rmtree,
removing every path at or below it. -/

/-- An absolute filesystem path, as its list of components. -/
abbrev FsPath : Type := List (List Char)

/-- Splits a string on the slash character. -/
def splitSlashAux (acc : List Char) : List Char → List (List Char)
  | [] => [acc.reverse]
  | c :: rest =>
    if c = '/' then acc.reverse :: splitSlashAux [] rest
    else splitSlashAux (c :: acc) rest

/-- Path components in the sense of pathlib / PurePosixPath: split on
slashes, dropping empty components and single-dot components (double-dot
components are kept). -/
def posixComponents (s : List Char) : List (List Char) :=
  (splitSlashAux [] s).filter (fun p => !(p.isEmpty || p = ['.']))

/-- Embeds `Path(temp_dir) / filename` (pathlib join, no resolution of
dot-dot): an absolute right operand replaces the base entirely. -/
def pathlibJoin (base : FsPath) (fn : List Char) : FsPath :=
  if fn.head? = some '/' then posixComponents fn
  else base ++ posixComponents fn

/-- The string form of an absolute pathlib path (components joined by
slashes behind a leading slash); dot-dot components stay textual. -/
def fsRender (p : FsPath) : List Char :=
  '/' :: List.intercalate ['/'] p

/-- The path at which the kernel actually creates a file opened at p:
dot-dot components are resolved against the parent directory (at the root,
dot-dot stays at the root). -/
def osResolve (p : FsPath) : FsPath :=
  p.foldl
    (fun acc comp => if comp = "..".toList then acc.dropLast else acc ++ [comp]) []

/-- Checks whether the first path is a (not necessarily proper) prefix of
the second: the second path lies at or below the first. -/
def fsUnder : List (List Char) → List (List Char) → Bool
  | [], _ => true
  | _ :: _, [] => false
  | a :: as, b :: bs => a = b && fsUnder as bs

/-- Embeds shutil.rmtree on the temporary directory, as run by the
TemporaryDirectory context-manager exit: every path at or below the
directory is removed. -/
def rmtree (tempDir : FsPath) (fs : List FsPath) : List FsPath :=
  fs.filter (fun p => !fsUnder tempDir p)

/-! ## File processor (src/file_processor.py) -/

/-- The two collaborator operations process_file can invoke, in order. -/
inductive PCall where
  | download
  | upload
deriving DecidableEq, Repr

/-- Everything observable about one process_file invocation: the returned
value, which collaborator operations ran, and the final disk state. -/
structure ProcOutcome where
  result : Option (List Char)
  calls : List PCall
  fs : List FsPath

/-- Embeds FileProcessor.process_file (src/file_processor.py lines 21-52).
The adapter fetch and the storage upload are the collaborators: each is a
function from the path arguments the code passes to an Except, error
standing for a raised exception.  The try/except swallows every exception
and returns None; the TemporaryDirectory context manager removes the
temporary directory tree on every exit path. -/
def process_file (download : List Char → Except (List Char) Unit)
    (upload : List Char → List Char → Except (List Char) (List Char))
    (path_template : List Char) (fm : FileMessage) (now : DateTime)
    (tempDir : FsPath) (fs0 : List FsPath) : ProcOutcome :=
  let metadata : FileMetadata :=
    ⟨fm.platform, fm.room_name, fm.sender_name, fm.filename, some fm.timestamp⟩
  let remote_path := resolve_path path_template metadata now
  let fs1 := tempDir :: fs0
  let local_path := fsRender (pathlibJoin tempDir fm.filename)
  let localTarget := osResolve (pathlibJoin tempDir fm.filename)
  match download local_path with
  | .error _ =>
    { result := none, calls := [.download], fs := rmtree tempDir fs1 }
  | .ok _ =>
    let fs2 := localTarget :: fs1
    match upload local_path remote_path with
    | .error _ =>
      { result := none, calls := [.download, .upload], fs := rmtree tempDir fs2 }
    | .ok uploaded =>
      { result := some uploaded, calls := [.download, .upload], fs := rmtree tempDir fs2 }

/-- Embeds the consumption loop of run_adapter (src/main.py lines 53-54):
process_file is awaited for every event the adapter yields, and since it
never raises, every event is processed. -/
def processAll (download : FileMessage → List Char → Except (List Char) Unit)
    (upload : FileMessage → List Char → List Char → Except (List Char) (List Char))
    (path_template : List Char) (now : DateTime) (tempDir : FsPath) :
    List FileMessage → List (Option (List Char))
  | [] => []
  | fm :: rest =>
    (process_file (download fm) (upload fm) path_template fm now tempDir []).result ::
      processAll download upload path_template now tempDir rest

/-! ## Supervisor (src/main.py, run_adapter) -/

/-- How the body of run_adapter's try block ends: normal exhaustion of
listen, or one of the three exception classes the handlers distinguish. -/
inductive LoopOutcome where
  | finished
  | matrixAuthError (msg : List Char)
  | cancelled
  | otherExc (msg : List Char)
deriving DecidableEq, Repr

/-- Observable effect of one run_adapter task: the final state of the
process-wide stop event, and whether disconnect ran. -/
structure RunAdapterResult where
  stopRequested : Bool
  disconnectCalled : Bool
deriving DecidableEq, Repr

/-- Embeds run_adapter's exception handling (src/main.py lines 45-66):
MatrixAuthError sets the stop event; CancelledError only logs; any other
exception also sets the stop event; disconnect always runs (finally). -/
def run_adapter (outcome : LoopOutcome) (stop0 : Bool) : RunAdapterResult :=
  match outcome with
  | .finished => ⟨stop0, true⟩
  | .matrixAuthError _ => ⟨true, true⟩
  | .cancelled => ⟨stop0, true⟩
  | .otherExc _ => ⟨true, true⟩

/-! ## Matrix adapter connect (src/adapters/matrix.py) -/

/-- The configuration fields read by connect and verify (src/config.py). -/
structure MatrixConfig where
  homeserver : List Char
  user_id : List Char
  access_token : List Char
deriving DecidableEq, Repr

/-- Outcome of client.whoami(): a transport-level exception, a WhoamiError
response, or a WhoamiResponse carrying the token's user id. -/
inductive WhoamiOutcome where
  | exn (msg : List Char)
  | errorResp (msg : List Char)
  | ok (user_id : List Char)
deriving DecidableEq, Repr

/-- Exceptions at the connect boundary.  The source only ever constructs
MatrixAuthError; the ConnectionError alternative exists so that statements
about which class is raised can be expressed. -/
inductive PyExc where
  | matrixAuthError (msg : List Char)
  | connectionError (msg : List Char)
deriving DecidableEq, Repr

/-- Embeds MatrixAdapter._verify_credentials (src/adapters/matrix.py lines
99-126), message strings included. -/
def verify_credentials (cfg : MatrixConfig) (who : WhoamiOutcome) :
    Except PyExc Unit :=
  match who with
  | .exn m =>
    .error (.matrixAuthError
      ("Failed to connect to homeserver: ".toList ++ m ++
       "\nCheck your homeserver URL: ".toList ++ cfg.homeserver))
  | .errorResp m =>
    .error (.matrixAuthError
      ("Authentication failed: ".toList ++ m ++
       "\nYour access_token is invalid or expired.\nGenerate a new token and update config.yaml.".toList))
  | .ok uid =>
    if uid = cfg.user_id then .ok ()
    else
      .error (.matrixAuthError
        ("User ID mismatch!\n  Config says: ".toList ++ cfg.user_id ++
         "\n  Token is for: ".toList ++ uid ++
         "\nUpdate user_id in config.yaml to match your token.".toList))

/-- Outcome of the initial client.sync call in connect. -/
inductive SyncOutcome where
  | ok
  | syncError (msg : List Char)
deriving DecidableEq, Repr

/-- Embeds MatrixAdapter.connect (src/adapters/matrix.py lines 76-97):
verify credentials, then the initial sync; a SyncError response again
raises MatrixAuthError. -/
def matrix_connect (cfg : MatrixConfig) (who : WhoamiOutcome)
    (sync : SyncOutcome) : Except PyExc Unit :=
  match verify_credentials cfg who with
  | .error e => .error e
  | .ok _ =>
    match sync with
    | .syncError m =>
      .error (.matrixAuthError
        ("Sync failed: ".toList ++ m ++
         "\nCheck your access_token and homeserver URL.".toList))
    | .ok => .ok ()

/-! ## Storage backend (src/uploader.py)

PurePosixPath is modelled by an absolute flag plus the component list;
str() re-renders it (the POSIX double-slash special root is not
distinguished, no path in scope uses it). -/

/-- Model of PurePosixPath: rootedness plus parsed components. -/
structure PurePosixPathM where
  absolute : Bool
  parts : List (List Char)
deriving DecidableEq, Repr

/-- Parses a string the way the PurePosixPath constructor does. -/
def posixParse (s : List Char) : PurePosixPathM :=
  ⟨s.head? = some '/', posixComponents s⟩

/-- The slash operator of PurePosixPath: an absolute right operand wins,
otherwise components concatenate. -/
def posixJoin (a b : PurePosixPathM) : PurePosixPathM :=
  if b.absolute then b else ⟨a.absolute, a.parts ++ b.parts⟩

/-- str() of a (model) PurePosixPath. -/
def posixStr (p : PurePosixPathM) : List Char :=
  if p.absolute then '/' :: List.intercalate ['/'] p.parts
  else if p.parts = [] then ['.']
  else List.intercalate ['/'] p.parts

/-- The configuration fields the uploaders read (src/config.py). -/
structure NextcloudConfig where
  url : List Char
  username : List Char
  password : List Char
  base_path : List Char
deriving DecidableEq, Repr

/-- Embeds NextcloudUploader._full_path (src/uploader.py lines 26-27):
str(self.base_path / relative_path) with base_path =
PurePosixPath(config.base_path). -/
def NextcloudUploader_full_path (cfg : NextcloudConfig)
    (relative_path : List Char) : List Char :=
  posixStr (posixJoin (posixParse cfg.base_path) (posixParse relative_path))

/-- Embeds DryRunUploader._full_path (src/uploader.py lines 85-86), the
same expression over the same base_path field. -/
def DryRunUploader_full_path (cfg : NextcloudConfig)
    (relative_path : List Char) : List Char :=
  posixStr (posixJoin (posixParse cfg.base_path) (posixParse relative_path))

/-- Embeds NextcloudUploader.upload_file (src/uploader.py lines 49-62).
transfer stands for the combined directory-creation and upload_sync side
effects, which may raise; on success the computed full remote path is
returned. -/
def NextcloudUploader_upload_file (cfg : NextcloudConfig)
    (transfer : Except (List Char) Unit) (remote_path : List Char) :
    Except (List Char) (List Char) :=
  let full_remote_path := NextcloudUploader_full_path cfg remote_path
  match transfer with
  | .error e => .error e
  | .ok _ => .ok full_remote_path

/-- Embeds DryRunUploader.upload_file (src/uploader.py lines 82-89): logs
only, never raises, returns the computed full remote path. -/
def DryRunUploader_upload_file (cfg : NextcloudConfig)
    (remote_path : List Char) : List Char :=
  DryRunUploader_full_path cfg remote_path

/-! ## Reference formulation of sanitize (from the specification text)

The reference pipeline is written with different recursions than the
embedding above: character replacement by explicit recursion over the
string, and run collapsing by skipping each maximal run, so that agreement
with sanitize_path_component is a genuine equivalence. -/

/-- Reference replacement: each character among the nine illegal ones
becomes an underscore. -/
def refReplaceIllegal : List Char → List Char
  | [] => []
  | c :: rest =>
    (if c ∈ ['<', '>', ':', '"', '/', '\\', '|', '?', '*'] then '_' else c) ::
      refReplaceIllegal rest

/-- Reference collapsing: a maximal run of consecutive underscores becomes
a single underscore. -/
def refCollapse : List Char → List Char
  | [] => []
  | c :: rest =>
    if c = '_' then '_' :: refCollapse (rest.dropWhile (fun d => d = '_'))
    else c :: refCollapse rest
termination_by l => l.length
decreasing_by
  · have h : (rest.dropWhile (fun d => d = '_')).length ≤ rest.length :=
      (List.dropWhile_sublist _).length_le
    simp only [List.length_cons]
    omega
  · simp only [List.length_cons]
    omega

/-- Reference sanitize, following the specification sentence: replace
illegal characters, strip leading/trailing dots and spaces, collapse
underscore runs, and fall back to the string unknown when empty. -/
def sanitize_ref (s : List Char) : List Char :=
  let r := refCollapse (stripDotsSpaces (refReplaceIllegal s))
  if r = [] then "unknown".toList else r

/-- No pair of adjacent underscores occurs in the string. -/
def noDoubleUnderscore : List Char → Bool
  | [] => true
  | [_] => true
  | c :: d :: rest => !(c = '_' && d = '_') && noDoubleUnderscore (d :: rest)

/-! ## Lemmas about the sanitize pipeline -/

theorem mem_of_mem_dropWhile {p : Char → Bool} {s : List Char} {c : Char}
    (h : c ∈ List.dropWhile p s) : c ∈ s :=
  (List.dropWhile_suffix p).subset h

theorem mem_of_mem_stripDotsSpaces {s : List Char} {c : Char}
    (h : c ∈ stripDotsSpaces s) : c ∈ s := by
  unfold stripDotsSpaces at h
  rw [List.mem_reverse] at h
  have h2 := mem_of_mem_dropWhile h
  rw [List.mem_reverse] at h2
  exact mem_of_mem_dropWhile h2

theorem mem_of_mem_collapseUnderscores {s : List Char} {c : Char}
    (h : c ∈ collapseUnderscores s) : c ∈ s := by
  induction s using collapseUnderscores.induct with
  | case1 => simpa [collapseUnderscores] using h
  | case2 a => simpa [collapseUnderscores] using h
  | case3 a b rest hab ih =>
    obtain ⟨ha, hb⟩ := hab
    subst ha hb
    rw [collapseUnderscores, if_pos ⟨rfl, rfl⟩] at h
    exact List.mem_cons_of_mem _ (ih h)
  | case4 a b rest hab ih =>
    rw [collapseUnderscores, if_neg hab] at h
    rcases List.mem_cons.mp h with h1 | h1
    · exact h1 ▸ List.mem_cons_self a _
    · exact List.mem_cons_of_mem _ (ih h1)

theorem replaceIllegal_no_illegal {s : List Char} {c : Char}
    (h : c ∈ replaceIllegal s) : isIllegalChar c = false := by
  unfold replaceIllegal at h
  rcases List.mem_map.mp h with ⟨a, _, rfl⟩
  by_cases ha : isIllegalChar a
  · simp only [ha, if_true]
    decide
  · simpa [ha] using ha

theorem replaceIllegal_eq_self {s : List Char}
    (h : ∀ c ∈ s, isIllegalChar c = false) : replaceIllegal s = s := by
  unfold replaceIllegal
  conv_rhs => rw [show s = s.map id from (List.map_id s).symm]
  exact List.map_congr_left (fun c hc => by simp [h c hc])

theorem head_dropWhile_false {p : Char → Bool} {s : List Char} {c : Char}
    (h : (List.dropWhile p s).head? = some c) : p c = false := by
  have := List.head?_dropWhile_not p s
  rw [h] at this
  simpa using this

theorem dropWhile_eq_self_of_head {p : Char → Bool} {s : List Char}
    (h : ∀ c, s.head? = some c → p c = false) : List.dropWhile p s = s := by
  cases s with
  | nil => rfl
  | cons a t =>
    have ha := h a rfl
    simp [List.dropWhile_cons, ha]

theorem stripDotsSpaces_head {s : List Char} {c : Char}
    (h : (stripDotsSpaces s).head? = some c) : isStripChar c = false := by
  unfold stripDotsSpaces at h
  rw [List.head?_reverse] at h
  set u := (s.dropWhile isStripChar).reverse with hu
  obtain ⟨w, hw⟩ := List.dropWhile_suffix (l := u) isStripChar
  have hne : List.dropWhile isStripChar u ≠ [] := by
    intro hnil
    rw [hnil] at h
    simp at h
  have h2 : u.getLast? = some c := by
    rw [← hw, List.getLast?_append_of_ne_nil _ hne]
    exact h
  rw [hu, List.getLast?_reverse] at h2
  exact head_dropWhile_false h2

theorem stripDotsSpaces_getLast {s : List Char} {c : Char}
    (h : (stripDotsSpaces s).getLast? = some c) : isStripChar c = false := by
  unfold stripDotsSpaces at h
  rw [List.getLast?_reverse] at h
  exact head_dropWhile_false h

theorem collapseUnderscores_head (s : List Char) :
    (collapseUnderscores s).head? = s.head? := by
  induction s using collapseUnderscores.induct with
  | case1 => rfl
  | case2 a => rfl
  | case3 a b rest hab ih =>
    obtain ⟨ha, hb⟩ := hab
    subst ha hb
    rw [collapseUnderscores, if_pos ⟨rfl, rfl⟩]
    rw [ih]
    rfl
  | case4 a b rest hab ih =>
    rw [collapseUnderscores, if_neg hab]
    rfl

theorem collapseUnderscores_ne_nil {s : List Char} (h : s ≠ []) :
    collapseUnderscores s ≠ [] := by
  intro hnil
  have := collapseUnderscores_head s
  rw [hnil] at this
  cases s with
  | nil => exact h rfl
  | cons a t => simp at this

theorem collapseUnderscores_getLast (s : List Char) :
    (collapseUnderscores s).getLast? = s.getLast? := by
  induction s using collapseUnderscores.induct with
  | case1 => rfl
  | case2 a => rfl
  | case3 a b rest hab ih =>
    obtain ⟨ha, hb⟩ := hab
    subst ha hb
    rw [collapseUnderscores, if_pos ⟨rfl, rfl⟩, ih]
    simp [List.getLast?_cons_cons]
  | case4 a b rest hab ih =>
    rw [collapseUnderscores, if_neg hab]
    have hne : collapseUnderscores (b :: rest) ≠ [] :=
      collapseUnderscores_ne_nil (by simp)
    rw [show a :: collapseUnderscores (b :: rest) =
          [a] ++ collapseUnderscores (b :: rest) from rfl,
        List.getLast?_append_of_ne_nil _ hne, ih]
    simp [List.getLast?_cons_cons]

theorem noDoubleUnderscore_collapseUnderscores (s : List Char) :
    noDoubleUnderscore (collapseUnderscores s) = true := by
  induction s using collapseUnderscores.induct with
  | case1 => rfl
  | case2 a => rfl
  | case3 a b rest hab ih =>
    obtain ⟨ha, hb⟩ := hab
    subst ha hb
    rw [collapseUnderscores, if_pos ⟨rfl, rfl⟩]
    exact ih
  | case4 a b rest hab ih =>
    rw [collapseUnderscores, if_neg hab]
    have hh := collapseUnderscores_head (b :: rest)
    cases hcb : collapseUnderscores (b :: rest) with
    | nil => rfl
    | cons x t =>
      rw [hcb] at hh
      simp only [List.head?_cons] at hh
      have hxb : x = b := by
        injection hh with hh1
      subst hxb
      rw [hcb] at ih
      show (!(a = '_' && x = '_') && noDoubleUnderscore (x :: t)) = true
      rw [ih]
      simp only [Bool.and_true, Bool.not_eq_true']
      by_cases hax : a = '_'
      · by_cases hbx : x = '_'
        · exact absurd ⟨hax, hbx⟩ hab
        · simp [hax, hbx]
      · simp [hax]

theorem collapseUnderscores_eq_self {s : List Char}
    (h : noDoubleUnderscore s = true) : collapseUnderscores s = s := by
  induction s using collapseUnderscores.induct with
  | case1 => rfl
  | case2 a => rfl
  | case3 a b rest hab ih =>
    obtain ⟨ha, hb⟩ := hab
    subst ha hb
    exfalso
    have : noDoubleUnderscore ('_' :: '_' :: rest) = true := h
    simp [noDoubleUnderscore] at this
  | case4 a b rest hab ih =>
    rw [collapseUnderscores, if_neg hab]
    have h2 : noDoubleUnderscore (b :: rest) = true := by
      have := h
      simp only [noDoubleUnderscore, Bool.and_eq_true] at this
      exact this.2
    rw [ih h2]

theorem stripDotsSpaces_eq_self {s : List Char}
    (h1 : ∀ c, s.head? = some c → isStripChar c = false)
    (h2 : ∀ c, s.getLast? = some c → isStripChar c = false) :
    stripDotsSpaces s = s := by
  unfold stripDotsSpaces
  rw [dropWhile_eq_self_of_head h1]
  have h3 : ∀ c, s.reverse.head? = some c → isStripChar c = false := by
    intro c hc
    rw [List.head?_reverse] at hc
    exact h2 c hc
  rw [dropWhile_eq_self_of_head h3, List.reverse_reverse]

/-! ## Properties of the output of sanitize -/

theorem sanitize_ne_nil (s : List Char) : sanitize_path_component s ≠ [] := by
  simp only [sanitize_path_component]
  by_cases h : collapseUnderscores (stripDotsSpaces (replaceIllegal s)) = []
  · simp only [h, if_true]
    decide
  · simpa [h] using h

theorem sanitize_no_illegal (s : List Char) :
    ∀ c ∈ sanitize_path_component s, isIllegalChar c = false := by
  intro c hc
  simp only [sanitize_path_component] at hc
  by_cases h : collapseUnderscores (stripDotsSpaces (replaceIllegal s)) = []
  · rw [h] at hc
    simp only [if_true] at hc
    fin_cases hc <;> decide
  · rw [if_neg h] at hc
    exact replaceIllegal_no_illegal
      (mem_of_mem_stripDotsSpaces (mem_of_mem_collapseUnderscores hc))

theorem sanitize_head {s : List Char} {c : Char}
    (h : (sanitize_path_component s).head? = some c) : isStripChar c = false := by
  simp only [sanitize_path_component] at h
  by_cases he : collapseUnderscores (stripDotsSpaces (replaceIllegal s)) = []
  · rw [he] at h
    simp only [if_true] at h
    have : c = 'u' := by
      simpa using h.symm
    subst this
    decide
  · rw [if_neg he, collapseUnderscores_head] at h
    exact stripDotsSpaces_head h

theorem sanitize_getLast {s : List Char} {c : Char}
    (h : (sanitize_path_component s).getLast? = some c) : isStripChar c = false := by
  simp only [sanitize_path_component] at h
  by_cases he : collapseUnderscores (stripDotsSpaces (replaceIllegal s)) = []
  · rw [he] at h
    simp only [if_true] at h
    have : c = 'n' := by
      simpa using h.symm
    subst this
    decide
  · rw [if_neg he, collapseUnderscores_getLast] at h
    exact stripDotsSpaces_getLast h

theorem sanitize_noDouble (s : List Char) :
    noDoubleUnderscore (sanitize_path_component s) = true := by
  simp only [sanitize_path_component]
  by_cases he : collapseUnderscores (stripDotsSpaces (replaceIllegal s)) = []
  · simp only [he, if_true]
    decide
  · rw [if_neg he]
    exact noDoubleUnderscore_collapseUnderscores _

theorem sanitize_eq_self_of {t : List Char} (h1 : replaceIllegal t = t)
    (h2 : stripDotsSpaces t = t) (h3 : collapseUnderscores t = t)
    (h4 : t ≠ []) : sanitize_path_component t = t := by
  simp only [sanitize_path_component, h1, h2, h3]
  rw [if_neg h4]

theorem mem_illegal_iff (c : Char) :
    (c ∈ ['<', '>', ':', '"', '/', '\\', '|', '?', '*']) ↔
      isIllegalChar c = true := by
  simp only [List.mem_cons, List.not_mem_nil, or_false, isIllegalChar,
    Bool.or_eq_true, decide_eq_true_eq]
  tauto

theorem refReplaceIllegal_eq (s : List Char) :
    refReplaceIllegal s = replaceIllegal s := by
  induction s with
  | nil => rfl
  | cons c rest ih =>
    have hr : replaceIllegal (c :: rest) =
        (if isIllegalChar c then '_' else c) :: replaceIllegal rest := rfl
    rw [refReplaceIllegal, hr, ih]
    congr 1
    by_cases h : isIllegalChar c
    · rw [if_pos h, if_pos ((mem_illegal_iff c).mpr h)]
    · rw [if_neg h, if_neg (fun hm => h ((mem_illegal_iff c).mp hm))]

theorem collapseUnderscores_cons_of_ne (c : Char) (l : List Char)
    (h : ¬c = '_') : collapseUnderscores (c :: l) = c :: collapseUnderscores l := by
  cases l with
  | nil => rfl
  | cons d t => rw [collapseUnderscores, if_neg (fun hc => h hc.1)]

theorem collapseUnderscores_underscore_cons (l : List Char) :
    collapseUnderscores ('_' :: l) =
      '_' :: collapseUnderscores (l.dropWhile (fun d => d = '_')) := by
  induction l with
  | nil => rfl
  | cons d t ih =>
    by_cases hd : d = '_'
    · subst hd
      have hstep : collapseUnderscores ('_' :: '_' :: t) =
          collapseUnderscores ('_' :: t) := by
        rw [collapseUnderscores, if_pos ⟨rfl, rfl⟩]
      rw [hstep, ih]
      simp [List.dropWhile_cons]
    · rw [collapseUnderscores, if_neg (fun hc => hd hc.2)]
      congr 1
      rw [List.dropWhile_cons, if_neg (by simp [hd])]

theorem refCollapse_eq (s : List Char) : refCollapse s = collapseUnderscores s := by
  induction s using refCollapse.induct with
  | case1 => simp [refCollapse, collapseUnderscores]
  | case2 rest ih =>
    rw [refCollapse, if_pos rfl, ih, collapseUnderscores_underscore_cons]
  | case3 c rest h ih =>
    rw [refCollapse, if_neg h, ih, collapseUnderscores_cons_of_ne c rest h]

theorem sanitize_ref_eq (s : List Char) :
    sanitize_path_component s = sanitize_ref s := by
  simp only [sanitize_path_component, sanitize_ref, refReplaceIllegal_eq,
    refCollapse_eq]

/-- C5: sanitize is idempotent: for every string s,
sanitize(sanitize(s)) == sanitize(s). -/
theorem C5_sanitize_idempotent (s : List Char) :
    sanitize_path_component (sanitize_path_component s) =
      sanitize_path_component s :=
  sanitize_eq_self_of
    (replaceIllegal_eq_self (sanitize_no_illegal s))
    (stripDotsSpaces_eq_self (fun _ hc => sanitize_head hc)
      (fun _ hc => sanitize_getLast hc))
    (collapseUnderscores_eq_self (sanitize_noDouble s))
    (sanitize_ne_nil s)

/-- C6: sanitize agrees with the reference definition (replace the nine
illegal characters by underscores, strip leading/trailing dots and spaces,
collapse underscore runs, fall back to the string unknown when empty) on
every string; in particular the empty string and the string of three dots
both sanitize to unknown. -/
theorem C6_sanitize_reference :
    (∀ s : List Char, sanitize_path_component s = sanitize_ref s) ∧
    sanitize_path_component "".toList = "unknown".toList ∧
    sanitize_path_component "...".toList = "unknown".toList :=
  ⟨sanitize_ref_eq, by decide, by decide⟩

/-! ## Lemmas about resolve_path -/

/-- The unrolled resolve_path is the fold of the substitution loop over the
variables association list. -/
theorem resolve_path_eq_applySubsts (t : List Char) (m : FileMetadata)
    (now : DateTime) : resolve_path t m now = applySubsts (pathVariables m now) t := by
  simp only [resolve_path, applySubsts, pathVariables, substStep,
    List.foldl_cons, List.foldl_nil]

theorem replaceAllAux_eq_self {p : Char} {ps rep : List Char} (fuel : Nat)
    {s : List Char} (h : containsTok (p :: ps) s = false) :
    replaceAllAux p ps rep fuel s = s := by
  induction fuel generalizing s with
  | zero => cases s <;> rfl
  | succ n ih =>
    cases s with
    | nil => rfl
    | cons c rest =>
      rw [containsTok, Bool.or_eq_false_iff] at h
      rw [replaceAllAux, if_neg (by simp [h.1])]
      rw [ih h.2]

theorem strReplace_eq_self {s pat rep : List Char}
    (h : containsTok pat s = false) : strReplace s pat rep = s := by
  cases pat with
  | nil =>
    exfalso
    cases s with
    | nil => simp [containsTok] at h
    | cons c rest => simp [containsTok, startsWith] at h
  | cons p ps => exact replaceAllAux_eq_self _ h

theorem applySubsts_eq_self {subs : List (List Char × List Char)}
    {t : List Char}
    (h : ∀ kv ∈ subs, containsTok ('{' :: kv.1 ++ ['}']) t = false) :
    applySubsts subs t = t := by
  induction subs with
  | nil => rfl
  | cons kv rest ih =>
    have h1 : substStep t kv = t :=
      strReplace_eq_self (h kv (List.mem_cons_self kv rest))
    have h2 : applySubsts (kv :: rest) t = applySubsts rest (substStep t kv) := rfl
    rw [h2, h1]
    exact ih (fun kv' hm => h kv' (List.mem_cons_of_mem kv hm))

/-- The fixed placeholder key set of resolve_path. -/
def placeholderKeys : List (List Char) :=
  ["platform".toList, "room".toList, "sender".toList, "filename".toList,
   "filename_base".toList, "ext".toList, "date".toList, "year".toList,
   "month".toList, "day".toList, "hour".toList, "minute".toList]

/-- Whether the template contains any placeholder token of the fixed set. -/
def hasPlaceholder (t : List Char) : Bool :=
  placeholderKeys.any (fun k => containsTok ('{' :: k ++ ['}']) t)

theorem pathVariables_keys (m : FileMetadata) (now : DateTime) :
    ∀ kv ∈ pathVariables m now, kv.1 ∈ placeholderKeys := by
  intro kv h
  simp only [pathVariables, List.mem_cons, List.not_mem_nil, or_false] at h
  rcases h with rfl | rfl | rfl | rfl | rfl | rfl | rfl | rfl | rfl | rfl | rfl | rfl <;>
    simp [placeholderKeys]

/-- A template without placeholder tokens resolves to itself: literal text
supplied by the template is never touched. -/
theorem resolve_path_no_placeholder {t : List Char} (m : FileMetadata)
    (now : DateTime) (h : hasPlaceholder t = false) : resolve_path t m now = t := by
  rw [resolve_path_eq_applySubsts]
  apply applySubsts_eq_self
  intro kv hm
  have hk := pathVariables_keys m now kv hm
  rw [hasPlaceholder] at h
  rw [List.any_eq_false] at h
  exact Bool.eq_false_iff.mpr (h kv.1 hk)

/-! ## Lemmas about the filename split -/

theorem mem_takeWhile_sat {p : Char → Bool} {l : List Char} {c : Char}
    (h : c ∈ List.takeWhile p l) : p c = true := by
  induction l with
  | nil => simp [List.takeWhile] at h
  | cons a t ih =>
    rw [List.takeWhile_cons] at h
    by_cases ha : p a
    · rw [if_pos ha] at h
      rcases List.mem_cons.mp h with rfl | h2
      · exact ha
      · exact ih h2
    · rw [if_neg ha] at h
      simp at h

theorem dropWhile_ne_nil_of_mem {p : Char → Bool} {l : List Char} {c : Char}
    (hc : c ∈ l) (hp : p c = false) : List.dropWhile p l ≠ [] := by
  induction l with
  | nil => simp at hc
  | cons a t ih =>
    rw [List.dropWhile_cons]
    by_cases ha : p a
    · rw [if_pos ha]
      rcases List.mem_cons.mp hc with rfl | h2
      · rw [hp] at ha
        exact absurd ha (by simp)
      · exact ih h2
    · rw [if_neg ha]
      simp

theorem rsplitDot_of_no_dot {fn : List Char} (h : '.' ∉ fn) :
    rsplitDot fn = (fn, []) := by
  rw [rsplitDot, if_neg h]

theorem rsplitDot_of_dot {fn : List Char} (h : '.' ∈ fn) :
    (rsplitDot fn).1 ++ '.' :: (rsplitDot fn).2 = fn ∧
      '.' ∉ (rsplitDot fn).2 := by
  rw [rsplitDot, if_pos h]
  set p : Char → Bool := fun c => !(c = '.') with hp
  have hmem : '.' ∈ fn.reverse := List.mem_reverse.mpr h
  have hne : List.dropWhile p fn.reverse ≠ [] :=
    dropWhile_ne_nil_of_mem hmem (by simp [hp])
  constructor
  · cases hd : List.dropWhile p fn.reverse with
    | nil => exact absurd hd hne
    | cons x u =>
      have hx : x = '.' := by
        have hh : (List.dropWhile p fn.reverse).head? = some x := by
          rw [hd]
          rfl
        have := head_dropWhile_false hh
        simpa [hp] using this
      subst hx
      have hsplit : List.takeWhile p fn.reverse ++ List.dropWhile p fn.reverse =
          fn.reverse := List.takeWhile_append_dropWhile p fn.reverse
      have : (('.' :: u).drop 1).reverse ++
          '.' :: (List.takeWhile p fn.reverse).reverse = fn := by
        simp only [List.drop_succ_cons, List.drop_zero]
        have h2 : u.reverse ++ '.' :: (List.takeWhile p fn.reverse).reverse =
            (List.takeWhile p fn.reverse ++ '.' :: u).reverse := by
          simp [List.reverse_append]
        rw [h2, ← hd, hsplit, List.reverse_reverse]
      simpa [hd] using this
  · intro hmem2
    rw [List.mem_reverse] at hmem2
    have := mem_takeWhile_sat hmem2
    simp [hp] at this

/-! ## Concrete fixtures used by the claim theorems -/

/-- A fixed concrete timestamp (2024-03-15 10:30). -/
def dt0 : DateTime := ⟨2024, 3, 15, 10, 30⟩

/-- Metadata of the multi-dot filename example. -/
def mDoc : FileMetadata :=
  ⟨"matrix".toList, "test".toList, "user".toList,
   "document.backup.tar.gz".toList, some dt0⟩

/-- Metadata of the dotless filename example. -/
def mReadme : FileMetadata :=
  ⟨"matrix".toList, "test".toList, "user".toList, "README".toList, some dt0⟩

/-- Metadata whose filename carries a slash after its last dot, so the ext
split value contains a path separator. -/
def mSlashExt : FileMetadata :=
  ⟨"matrix".toList, "room".toList, "sender".toList, "a.b/c".toList, some dt0⟩

/-- Metadata whose room name is literally the ext placeholder token (none
of its characters is illegal, so sanitize preserves it). -/
def mRoomTok : FileMetadata :=
  ⟨"matrix".toList, "{ext}".toList, "sender".toList, "a.b".toList, some dt0⟩

/-- The substitution list of mRoomTok at dt0 with the ext entry moved to
the front: a permutation of the dict order. -/
def varsSwapped : List (List Char × List Char) :=
  [ ("ext".toList, "b".toList),
    ("platform".toList, "matrix".toList),
    ("room".toList, "{ext}".toList),
    ("sender".toList, "sender".toList),
    ("filename".toList, "a.b".toList),
    ("filename_base".toList, "a".toList),
    ("date".toList, "2024-03-15".toList),
    ("year".toList, "2024".toList),
    ("month".toList, "03".toList),
    ("day".toList, "15".toList),
    ("hour".toList, "10".toList),
    ("minute".toList, "30".toList) ]

/-! ## Claims C3, C4, C7 -/

/-- C3 counterexample: the claim says every substituted value derived from
untrusted chat content, including the ext placeholder, is sanitized and so
contains no slash; yet for the filename a.b/c the template consisting of
the ext placeholder alone resolves to b/c, which contains a slash. -/
theorem C3_counterexample :
    resolve_path "{ext}".toList mSlashExt dt0 = "b/c".toList ∧
    '/' ∈ resolve_path "{ext}".toList mSlashExt dt0 := by
  exact ⟨by decide, by decide⟩

/-- C3 amended: the platform, room, sender, filename and filename_base
values are each independently sanitized before substitution — sanitize
output is always non-empty and free of the nine illegal characters — but
the ext value is substituted raw, exactly as split from the filename; and
a template without placeholder tokens (literal separators included)
resolves to itself unchanged. -/
theorem C3_amended_sanitization (m : FileMetadata) (now : DateTime) :
    pathVariables m now =
      [ ("platform".toList, sanitize_path_component m.platform),
        ("room".toList, sanitize_path_component m.room),
        ("sender".toList, sanitize_path_component m.sender),
        ("filename".toList, sanitize_path_component m.filename),
        ("filename_base".toList, sanitize_path_component (rsplitDot m.filename).1),
        ("ext".toList, (rsplitDot m.filename).2),
        ("date".toList, fmtDate (m.timestamp.getD now)),
        ("year".toList, fmtYear (m.timestamp.getD now).year),
        ("month".toList, pad2 (m.timestamp.getD now).month),
        ("day".toList, pad2 (m.timestamp.getD now).day),
        ("hour".toList, pad2 (m.timestamp.getD now).hour),
        ("minute".toList, pad2 (m.timestamp.getD now).minute) ] ∧
    (∀ s : List Char, sanitize_path_component s ≠ [] ∧
      ∀ c ∈ sanitize_path_component s, isIllegalChar c = false) ∧
    (∀ t : List Char, hasPlaceholder t = false → resolve_path t m now = t) :=
  ⟨rfl,
   fun s => ⟨sanitize_ne_nil s, sanitize_no_illegal s⟩,
   fun _ h => resolve_path_no_placeholder m now h⟩

/-- C3 witness: a token-free template with literal separators resolves to
itself. -/
theorem C3_amended_sanitization_witness :
    hasPlaceholder "media/plain files".toList = false ∧
    resolve_path "media/plain files".toList mDoc dt0 =
      "media/plain files".toList :=
  ⟨by decide, (C3_amended_sanitization mDoc dt0).2.2 _ (by decide)⟩

/-- C4 counterexample: substitution is not order-independent and not
non-recursive: with room name equal to the ext token and filename a.b, the
room-only template resolves to b (the substituted room value is expanded
again by the later ext replacement), while replacing ext first and then
the remaining tokens — a permutation of the same substitutions — leaves
the ext token unexpanded. -/
theorem C4_counterexample :
    varsSwapped.Perm (pathVariables mRoomTok dt0) ∧
    resolve_path "{room}".toList mRoomTok dt0 = "b".toList ∧
    applySubsts varsSwapped "{room}".toList = "{ext}".toList ∧
    applySubsts varsSwapped "{room}".toList ≠
      applySubsts (pathVariables mRoomTok dt0) "{room}".toList := by
  exact ⟨by decide, by decide, by decide, by decide⟩

/-- C4 amended: substitution is one sequential textual pass over the
fixed dictionary order platform, room, sender, filename, filename_base,
ext, date, year, month, day, hour, minute — the resolved path is the left
fold of single replacements in exactly that order — and an
earlier-substituted value containing a later placeholder token is expanded
again by the later replacement, so the pass is order-dependent in
general. -/
theorem C4_amended_sequential (t : List Char) (m : FileMetadata)
    (now : DateTime) :
    resolve_path t m now = applySubsts (pathVariables m now) t ∧
    (pathVariables m now).map Prod.fst = placeholderKeys :=
  ⟨resolve_path_eq_applySubsts t m now, rfl⟩

/-- C7: filename_base and ext split on the last dot of the filename — for
a dotless filename the base is the whole filename and ext is empty, and
when a dot occurs the two parts rejoin with a dot to the original filename
with no dot left in ext; concretely, the template joining the two
placeholders with a dot round-trips document.backup.tar.gz, and README
resolves to README. with the trailing dot preserved. -/
theorem C7_last_dot_split :
    (∀ fn : List Char,
      ('.' ∉ fn → rsplitDot fn = (fn, [])) ∧
      ('.' ∈ fn → (rsplitDot fn).1 ++ '.' :: (rsplitDot fn).2 = fn ∧
        '.' ∉ (rsplitDot fn).2)) ∧
    resolve_path "{filename_base}.{ext}".toList mDoc dt0 =
      "document.backup.tar.gz".toList ∧
    resolve_path "{filename_base}.{ext}".toList mReadme dt0 =
      "README.".toList :=
  ⟨fun _ => ⟨rsplitDot_of_no_dot, rsplitDot_of_dot⟩, by decide, by decide⟩

/-- C7 witness: both branches of the split characterization at concrete
filenames. -/
theorem C7_last_dot_split_witness :
    rsplitDot "README".toList = ("README".toList, []) ∧
    (rsplitDot "a.tar.gz".toList).1 ++ '.' :: (rsplitDot "a.tar.gz".toList).2 =
      "a.tar.gz".toList ∧
    '.' ∉ (rsplitDot "a.tar.gz".toList).2 := by
  refine ⟨(C7_last_dot_split.1 "README".toList).1 (by decide), ?_, ?_⟩
  · exact ((C7_last_dot_split.1 "a.tar.gz".toList).2 (by decide)).1
  · exact ((C7_last_dot_split.1 "a.tar.gz".toList).2 (by decide)).2

/-- A concrete benign file-arrival event. -/
def fmsg0 : FileMessage :=
  ⟨"matrix".toList, "!r:hs".toList, "Room".toList, "@a:hs".toList,
   "Alice".toList, "photo.jpg".toList, "image/jpeg".toList, 5, dt0,
   "mxc://hs/abc".toList, "$e1".toList⟩

/-- A concrete event whose filename climbs out of the temporary
directory. -/
def fmEscape : FileMessage :=
  ⟨"matrix".toList, "!r:hs".toList, "Room".toList, "@a:hs".toList,
   "Alice".toList, "../evil.txt".toList, "image/jpeg".toList, 5, dt0,
   "mxc://hs/abc".toList, "$e2".toList⟩

/-! ## Claims C1 and C8: the file processor -/

theorem fsUnder_refl (p : List (List Char)) : fsUnder p p = true := by
  induction p with
  | nil => rfl
  | cons a t ih => simp [fsUnder, ih]

theorem processAll_length
    (download : FileMessage → List Char → Except (List Char) Unit)
    (upload : FileMessage → List Char → List Char → Except (List Char) (List Char))
    (tpl : List Char) (now : DateTime) (tempDir : FsPath)
    (fms : List FileMessage) :
    (processAll download upload tpl now tempDir fms).length = fms.length := by
  induction fms with
  | nil => rfl
  | cons fm rest ih => simp [processAll, ih]

/-- C1: for every file-arrival event, a fetch failure leaves the upload
operation uncalled and process_file returns None; an upload failure also
yields None (the exception is swallowed, not re-raised); when fetch and
upload both succeed, process_file returns exactly the remote path the
uploader reported; and the consumption loop processes every event
regardless of per-event failures. -/
theorem C1_process_file_isolation
    (download : List Char → Except (List Char) Unit)
    (upload : List Char → List Char → Except (List Char) (List Char))
    (tpl : List Char) (fm : FileMessage) (now : DateTime)
    (tempDir : FsPath) (fs0 : List FsPath) :
    (∀ e, download (fsRender (pathlibJoin tempDir fm.filename)) = .error e →
      PCall.upload ∉ (process_file download upload tpl fm now tempDir fs0).calls ∧
      (process_file download upload tpl fm now tempDir fs0).result = none) ∧
    (∀ e, upload (fsRender (pathlibJoin tempDir fm.filename))
        (resolve_path tpl
          ⟨fm.platform, fm.room_name, fm.sender_name, fm.filename,
           some fm.timestamp⟩ now) = .error e →
      (process_file download upload tpl fm now tempDir fs0).result = none) ∧
    (∀ u r, download (fsRender (pathlibJoin tempDir fm.filename)) = .ok u →
      upload (fsRender (pathlibJoin tempDir fm.filename))
        (resolve_path tpl
          ⟨fm.platform, fm.room_name, fm.sender_name, fm.filename,
           some fm.timestamp⟩ now) = .ok r →
      (process_file download upload tpl fm now tempDir fs0).result = some r) ∧
    (∀ (dl : FileMessage → List Char → Except (List Char) Unit)
        (ul : FileMessage → List Char → List Char → Except (List Char) (List Char))
        (fms : List FileMessage),
      (processAll dl ul tpl now tempDir fms).length = fms.length) := by
  refine ⟨?_, ?_, ?_, fun dl ul fms => processAll_length dl ul tpl now tempDir fms⟩
  · intro e he
    simp only [process_file, he]
    constructor
    · intro hmem
      simp at hmem
    · trivial
  · intro e he
    simp only [process_file]
    cases hd : download (fsRender (pathlibJoin tempDir fm.filename)) with
    | error e2 => rfl
    | ok u => simp only [he]
  · intro u r hd hu
    simp only [process_file, hd, hu]

/-- C1 witness: with a failing fetch, the upload is uncalled and the
result is None. -/
theorem C1_process_file_isolation_witness :
    PCall.upload ∉
      (process_file (fun _ => Except.error "boom".toList)
        (fun _ _ => Except.ok "/up".toList) "{filename}".toList fmsg0 dt0
        [ "tmp".toList, "work".toList ] []).calls ∧
    (process_file (fun _ => Except.error "boom".toList)
      (fun _ _ => Except.ok "/up".toList) "{filename}".toList fmsg0 dt0
      [ "tmp".toList, "work".toList ] []).result = none :=
  (C1_process_file_isolation (fun _ => Except.error "boom".toList)
    (fun _ _ => Except.ok "/up".toList) "{filename}".toList fmsg0 dt0
    [ "tmp".toList, "work".toList ] []).1 "boom".toList rfl

/-- C8 counterexample: the claim quantifies over every filename string;
but a filename carrying an upward traversal escapes the temporary
directory — the fetched file is created outside it, survives the
temporary-directory cleanup, and is still on disk after process_file
returns, even on the success path. -/
theorem C8_counterexample :
    (process_file (fun _ => Except.ok ()) (fun _ _ => Except.ok "/up".toList)
        "{filename}".toList fmEscape dt0
        [ "tmp".toList, "work".toList ] []).fs =
      [ [ "tmp".toList, "evil.txt".toList ] ] ∧
    (process_file (fun _ => Except.ok ()) (fun _ _ => Except.ok "/up".toList)
        "{filename}".toList fmEscape dt0
        [ "tmp".toList, "work".toList ] []).fs ≠ [] := by
  exact ⟨by decide, by decide⟩

/-- C8 amended: whenever the filename's joined path stays inside the fresh
temporary directory (as every plain filename without traversal components
does), process_file restores the disk exactly on every exit path —
success, fetch failure, or upload failure. -/
theorem C8_amended_no_residual_tempfile
    (download : List Char → Except (List Char) Unit)
    (upload : List Char → List Char → Except (List Char) (List Char))
    (tpl : List Char) (fm : FileMessage) (now : DateTime)
    (tempDir : FsPath) (fs0 : List FsPath)
    (hfresh : ∀ p ∈ fs0, fsUnder tempDir p = false)
    (hinside : fsUnder tempDir (osResolve (pathlibJoin tempDir fm.filename)) = true) :
    (process_file download upload tpl fm now tempDir fs0).fs = fs0 := by
  have hfs0 : rmtree tempDir fs0 = fs0 := by
    rw [rmtree, List.filter_eq_self]
    intro p hp
    simp [hfresh p hp]
  simp only [process_file]
  cases hd : download (fsRender (pathlibJoin tempDir fm.filename)) with
  | error e =>
    simp only [rmtree, List.filter_cons]
    rw [show (!fsUnder tempDir tempDir) = false by simp [fsUnder_refl]]
    simp only [Bool.false_eq_true, if_false]
    rw [← rmtree, hfs0]
  | ok u =>
    cases hu : upload (fsRender (pathlibJoin tempDir fm.filename))
        (resolve_path tpl
          ⟨fm.platform, fm.room_name, fm.sender_name, fm.filename,
           some fm.timestamp⟩ now) with
    | error e =>
      simp only [rmtree, List.filter_cons]
      rw [show (!fsUnder tempDir (osResolve (pathlibJoin tempDir fm.filename))) =
            false by simp [hinside]]
      rw [show (!fsUnder tempDir tempDir) = false by simp [fsUnder_refl]]
      simp only [Bool.false_eq_true, if_false]
      rw [← rmtree, hfs0]
    | ok up =>
      simp only [rmtree, List.filter_cons]
      rw [show (!fsUnder tempDir (osResolve (pathlibJoin tempDir fm.filename))) =
            false by simp [hinside]]
      rw [show (!fsUnder tempDir tempDir) = false by simp [fsUnder_refl]]
      simp only [Bool.false_eq_true, if_false]
      rw [← rmtree, hfs0]

/-- C8 witness: a plain filename stays inside the temporary directory and
the disk is restored. -/
theorem C8_amended_witness :
    (∀ p ∈ [[ "home".toList ]],
      fsUnder [ "tmp".toList, "work".toList ] p = false) ∧
    fsUnder [ "tmp".toList, "work".toList ]
      (osResolve (pathlibJoin [ "tmp".toList, "work".toList ]
        "photo.jpg".toList)) = true ∧
    (process_file (fun _ => Except.ok ()) (fun _ _ => Except.ok "/up".toList)
      "{filename}".toList fmsg0 dt0 [ "tmp".toList, "work".toList ]
      [[ "home".toList ]]).fs = [[ "home".toList ]] :=
  ⟨by decide, by decide,
   C8_amended_no_residual_tempfile (fun _ => Except.ok ())
     (fun _ _ => Except.ok "/up".toList) "{filename}".toList fmsg0 dt0
     [ "tmp".toList, "work".toList ] [[ "home".toList ]]
     (by decide) (by decide)⟩

/-! ## Claim C2: the supervisor -/

/-- C2 counterexample: the claim says a non-authentication connect failure
is non-fatal — surfaced as a warning with the stop event left unset and
the other adapters unaffected — but run_adapter's generic handler sets the
process-wide stop event for any exception other than cancellation, so a
ConnectionError-style startup failure triggers global shutdown. -/
theorem C2_counterexample :
    run_adapter (.otherExc "ConnectionError: connection refused".toList)
      false = ⟨true, true⟩ := by
  decide

/-- C2 amended: an AuthenticationError from the adapter loop sets the
global stop event (fatal, whole-process); every other exception apart from
cooperative cancellation equally sets it, so a non-authentication connect
failure is fatal to the whole process too; only cancellation and normal
loop exhaustion leave the stop event unchanged; disconnect always runs. -/
theorem C2_amended_fatal_errors (msg : List Char) (stop0 : Bool) :
    run_adapter (.matrixAuthError msg) stop0 = ⟨true, true⟩ ∧
    run_adapter (.otherExc msg) stop0 = ⟨true, true⟩ ∧
    run_adapter .cancelled stop0 = ⟨stop0, true⟩ ∧
    run_adapter .finished stop0 = ⟨stop0, true⟩ :=
  ⟨rfl, rfl, rfl, rfl⟩

/-! ## Claim C9: the Matrix adapter's connect errors -/

/-- C9 counterexample: a transport-level whoami failure is a startup
failure that is not a credential problem, which the claim says must raise
a generic ConnectionError; the adapter raises MatrixAuthError for it. -/
theorem C9_counterexample :
    matrix_connect ⟨"https://hs.example".toList, "@alice:hs".toList,
        "tok".toList⟩ (.exn "timeout".toList) .ok =
      .error (.matrixAuthError
        ("Failed to connect to homeserver: timeout\nCheck your homeserver URL: https://hs.example".toList)) :=
  rfl

/-- C9 amended: the Matrix adapter raises MatrixAuthError for every
connect-time failure — whoami transport failure, whoami error response,
user-id mismatch, and initial-sync error — and never raises a generic
ConnectionError; the credential messages name the offending credential and
the fix; connect succeeds exactly when whoami returns the configured user
id and the initial sync succeeds. -/
theorem C9_amended_connect_errors (cfg : MatrixConfig) (m uid : List Char)
    (sync : SyncOutcome) :
    matrix_connect cfg (.exn m) sync =
      .error (.matrixAuthError
        ("Failed to connect to homeserver: ".toList ++ m ++
         "\nCheck your homeserver URL: ".toList ++ cfg.homeserver)) ∧
    matrix_connect cfg (.errorResp m) sync =
      .error (.matrixAuthError
        ("Authentication failed: ".toList ++ m ++
         "\nYour access_token is invalid or expired.\nGenerate a new token and update config.yaml.".toList)) ∧
    (uid ≠ cfg.user_id →
      matrix_connect cfg (.ok uid) sync =
        .error (.matrixAuthError
          ("User ID mismatch!\n  Config says: ".toList ++ cfg.user_id ++
           "\n  Token is for: ".toList ++ uid ++
           "\nUpdate user_id in config.yaml to match your token.".toList))) ∧
    matrix_connect cfg (.ok cfg.user_id) (.syncError m) =
      .error (.matrixAuthError
        ("Sync failed: ".toList ++ m ++
         "\nCheck your access_token and homeserver URL.".toList)) ∧
    matrix_connect cfg (.ok cfg.user_id) .ok = .ok () ∧
    (∀ (who : WhoamiOutcome) (sync2 : SyncOutcome) (em : List Char),
      matrix_connect cfg who sync2 ≠ .error (.connectionError em)) := by
  refine ⟨rfl, rfl, ?_, ?_, ?_, ?_⟩
  · intro hne
    simp only [matrix_connect, verify_credentials, if_neg hne]
  · simp [matrix_connect, verify_credentials]
  · simp [matrix_connect, verify_credentials]
  · intro who sync2 em
    cases who with
    | exn m2 => simp [matrix_connect, verify_credentials]
    | errorResp m2 => simp [matrix_connect, verify_credentials]
    | ok uid2 =>
      by_cases h : uid2 = cfg.user_id
      · subst h
        cases sync2 with
        | ok => simp [matrix_connect, verify_credentials]
        | syncError m2 => simp [matrix_connect, verify_credentials]
      · simp [matrix_connect, verify_credentials, h]

/-- C9 witness: a mismatched user id produces the mismatch
MatrixAuthError. -/
theorem C9_amended_connect_errors_witness :
    matrix_connect ⟨"https://hs.example".toList, "@alice:hs".toList,
        "tok".toList⟩ (.ok "@bob:hs".toList) .ok =
      .error (.matrixAuthError
        ("User ID mismatch!\n  Config says: @alice:hs\n  Token is for: @bob:hs\nUpdate user_id in config.yaml to match your token.".toList)) := by
  have h := (C9_amended_connect_errors
    ⟨"https://hs.example".toList, "@alice:hs".toList, "tok".toList⟩
    "irrelevant".toList "@bob:hs".toList .ok).2.2.1 (by decide)
  exact h.trans rfl

/-! ## Claim C10: dry-run and real uploader path equivalence -/

/-- C10: the dry-run uploader's upload_file returns exactly the remote
path string the real uploader computes and returns on success, namely the
POSIX-style join of the configured base path with the relative path. -/
theorem C10_dryrun_path_equivalence (cfg : NextcloudConfig)
    (remote_path : List Char) :
    DryRunUploader_upload_file cfg remote_path =
      NextcloudUploader_full_path cfg remote_path ∧
    NextcloudUploader_upload_file cfg (Except.ok ()) remote_path =
      Except.ok (DryRunUploader_upload_file cfg remote_path) ∧
    DryRunUploader_upload_file cfg remote_path =
      posixStr (posixJoin (posixParse cfg.base_path)
        (posixParse remote_path)) :=
  ⟨rfl, rfl, rfl⟩

end ChatToNextcloud
